import Mathlib

/-!
Verification of the binary-field decoding core of the
ln-history-python-client repository (file `lnhistoryclient/parser/common.py`).

Modelling conventions:
* A Python `bytes` value is a `List Nat` whose entries are < 256.
* A Python `io.BytesIO` stream is its underlying buffer (`List Nat`) paired
  with an explicit read position (`Nat`); `BytesIO.read(n)` returns up to `n`
  bytes and advances the position by the number of bytes actually returned.
* Python exceptions are the `.error` arm of `Except String`; a `try/except`
  block is a match on that arm.
* Python strings are `String` where only rendering matters (addresses, scid),
  and lists of Unicode codepoints (`List Nat`) in the alias decoder, where
  codepoint-level stripping is at stake.
* The two known-message-type sets live in `lnhistoryclient/constants.py`,
  configuration outside the decoding core; every function that consults them
  takes them as explicit parameters `lt` / `clt` (LIGHTNING_TYPES and
  CORE_LIGHTNING_TYPES), as the design requires them to be injectable.
-/

namespace LnHistory

/-- Big-endian unsigned 16-bit value of two bytes: what `struct.unpack` with
a big-endian unsigned-short format yields on a 2-byte buffer, and what
`int.from_bytes` with big byte order yields on 2 bytes. -/
def be16 (b0 b1 : Nat) : Nat := 256 * b0 + b1

/-- Embeds `get_message_type_by_raw_hex` (parser/common.py, lines 13-34):
raise ValueError when fewer than 2 bytes, else unpack the first two bytes
big-endian and return the value when it is in either known-type set,
otherwise None. -/
def get_message_type_by_raw_hex (lt clt : List Nat) (raw_hex : List Nat) :
    Except String (Option Nat) :=
  if raw_hex.length < 2 then
    .error "Insufficient data: Expected at least 2 bytes to extract message type."
  else
    let msg_type := be16 (raw_hex.headD 0) (raw_hex.tail.headD 0)
    if msg_type ∈ lt ∨ msg_type ∈ clt then .ok (some msg_type) else .ok none

/-- Embeds `strip_known_message_type` (parser/common.py, lines 182-211):
raise ValueError (re-wrapped by the outer try/except) when fewer than
2 bytes; else drop the first 2 bytes exactly when their big-endian value is
in the union of the two known-type sets, otherwise return the input
unchanged. -/
def strip_known_message_type (lt clt : List Nat) (data : List Nat) :
    Except String (List Nat) :=
  if data.length < 2 then
    .error "Failed to strip known message type: Input data is too short to contain a message type prefix."
  else
    let p := be16 (data.headD 0) (data.tail.headD 0)
    if p ∈ lt ∨ p ∈ clt then .ok (data.drop 2) else .ok data

/-- Embeds `read_exact` (parser/common.py, lines 111-131) over the explicit
stream model: `b.read(n)` returns the next `min n remaining` bytes and
advances the position by that many; `read_exact` then raises ValueError when
fewer than `n` bytes were obtained.  The returned `Nat` is the stream
position after the call, on success and on failure alike. -/
def read_exact (buf : List Nat) (pos n : Nat) : Except String (List Nat) × Nat :=
  let data := (buf.drop pos).take n
  if data.length = n then (.ok data, pos + data.length)
  else (.error "Expected n bytes, got fewer", pos + data.length)

/-- Embeds `get_scid_from_int` (parser/common.py, lines 161-179): unpack the
64-bit scid into block height, transaction index and output index by shifts
and masks, and format them as a decimal x-separated string. -/
def get_scid_from_int (scid_int : Nat) : String :=
  let block := (scid_int >>> 40) &&& 0xFFFFFF
  let txindex := (scid_int >>> 16) &&& 0xFFFFFF
  let output := scid_int &&& 0xFFFF
  Nat.repr block ++ "x" ++ Nat.repr txindex ++ "x" ++ Nat.repr output

/-- Bool test for a UTF-8 continuation byte (high bits 10). -/
def utf8Cont (b : Nat) : Bool := decide (0x80 ≤ b) && decide (b ≤ 0xBF)

/-- Valid second byte of a 3-byte UTF-8 sequence led by `b0`: the strict
decoder rejects overlong encodings (lead 0xE0 needs 0xA0-0xBF) and
surrogates (lead 0xED caps at 0x9F). -/
def utf8Valid3 (b0 b1 : Nat) : Bool :=
  if b0 = 0xE0 then decide (0xA0 ≤ b1) && decide (b1 ≤ 0xBF)
  else if b0 = 0xED then decide (0x80 ≤ b1) && decide (b1 ≤ 0x9F)
  else utf8Cont b1

/-- Valid second byte of a 4-byte UTF-8 sequence led by `b0`: lead 0xF0
needs 0x90-0xBF (no overlong), lead 0xF4 caps at 0x8F (≤ U+10FFFF). -/
def utf8Valid4 (b0 b1 : Nat) : Bool :=
  if b0 = 0xF0 then decide (0x90 ≤ b1) && decide (b1 ≤ 0xBF)
  else if b0 = 0xF4 then decide (0x80 ≤ b1) && decide (b1 ≤ 0x8F)
  else utf8Cont b1

/-- Strict UTF-8 decoding of a byte list into a list of Unicode codepoints:
the acceptance set of Python `bytes.decode` with the utf-8 codec in its
default strict mode (any ill-formed byte raises UnicodeDecodeError, here
`none`). -/
def decodeUtf8 : List Nat → Option (List Nat)
  | [] => some []
  | b0 :: rest =>
    if b0 ≤ 0x7F then (decodeUtf8 rest).map (b0 :: ·)
    else if 0xC2 ≤ b0 ∧ b0 ≤ 0xDF then
      match rest with
      | b1 :: rest2 =>
        if utf8Cont b1 then
          (decodeUtf8 rest2).map (((b0 - 0xC0) * 0x40 + (b1 - 0x80)) :: ·)
        else none
      | [] => none
    else if 0xE0 ≤ b0 ∧ b0 ≤ 0xEF then
      match rest with
      | b1 :: b2 :: rest3 =>
        if utf8Valid3 b0 b1 && utf8Cont b2 then
          (decodeUtf8 rest3).map
            (((b0 - 0xE0) * 0x1000 + (b1 - 0x80) * 0x40 + (b2 - 0x80)) :: ·)
        else none
      | _ => none
    else if 0xF0 ≤ b0 ∧ b0 ≤ 0xF4 then
      match rest with
      | b1 :: b2 :: b3 :: rest4 =>
        if utf8Valid4 b0 b1 && utf8Cont b2 && utf8Cont b3 then
          (decodeUtf8 rest4).map
            (((b0 - 0xF0) * 0x40000 + (b1 - 0x80) * 0x1000
              + (b2 - 0x80) * 0x40 + (b3 - 0x80)) :: ·)
        else none
      | _ => none
    else none

/-- Removes the leading run of element `c`, as the left half of Python
`strip` with a single-element strip set. -/
def lstripC (c : Nat) (l : List Nat) : List Nat := l.dropWhile (· == c)

/-- Removes the trailing run of element `c`, as the right half of Python
`strip` with a single-element strip set. -/
def rstripC (c : Nat) (l : List Nat) : List Nat :=
  (l.reverse.dropWhile (· == c)).reverse

/-- Python `strip` with a single-element strip set: removes the leading and
the trailing run of `c`.  Used both for `str.strip` over codepoints and for
`bytes.strip` over bytes. -/
def stripC (c : Nat) (l : List Nat) : List Nat := rstripC c (lstripC c l)

/-- Hex digit character codepoint for a value below 16, lowercase as Python
`bytes.hex` produces. -/
def hexDigit (n : Nat) : Nat := if n < 10 then 48 + n else 87 + n

/-- Embeds Python `bytes.hex`: two lowercase hex digit codepoints per byte. -/
def bytesHex (l : List Nat) : List Nat :=
  (l.map fun b => [hexDigit (b / 16), hexDigit (b % 16)]).flatten

/-- Embeds `decode_alias` (parser/common.py, lines 134-158).  The Python
stdlib punycode codec is abstracted as the parameter `puny` (success is
`some`, any raised exception is `none`); every other step is concrete.
Control flow of the source: try strict UTF-8 on the whole input and strip
NUL codepoints from the result; on UnicodeDecodeError strip NUL bytes from
the input and try punycode; on any further failure fall back to the hex
encoding of the original bytes. -/
def decode_alias (puny : List Nat → Option (List Nat)) (alias_bytes : List Nat) :
    List Nat :=
  match decodeUtf8 alias_bytes with
  | some s => stripC 0 s
  | none =>
    match puny (stripC 0 alias_bytes) with
    | some s => s
    | none => bytesHex alias_bytes

/-- Modelled from the spec: the repository file `model/AddressType.py` is not
under src/; the design (§3, §4.4) fixes exactly five address kinds with type
bytes 1 (IPv4), 2 (IPv6), 3 (Tor v2), 4 (Tor v3), 5 (DNS). -/
inductive AddressType
  | IPV4
  | IPV6
  | TORV2
  | TORV3
  | DNS
  deriving DecidableEq

/-- Modelled from the spec: the Python enum constructor `AddressType(type_id)`
succeeds for the five declared values 1-5 and raises ValueError on every
other integer, which the surrounding try/except of `parse_address`
intercepts. -/
def AddressType.ofNat? (n : Nat) : Option AddressType :=
  if n = 1 then some .IPV4
  else if n = 2 then some .IPV6
  else if n = 3 then some .TORV2
  else if n = 4 then some .TORV3
  else if n = 5 then some .DNS
  else none

/-- Modelled from the spec: the repository file `model/Address.py` is not
under src/; the design (§3) gives an address record a kind, a canonical
human-readable text and a port. -/
structure Address where
  typ : AddressType
  addr : String
  port : Nat
  deriving DecidableEq

/-- Dotted-decimal rendering of 4 address bytes: what `str` of a Python
`ipaddress.IPv4Address` built from 4 bytes produces. -/
def ipv4_to_string (bs : List Nat) : String :=
  String.intercalate "." (bs.map Nat.repr)

/-- Splits a 16-byte IPv6 address into its 8 big-endian 16-bit hextets. -/
def hextetsOf : List Nat → List Nat
  | a :: b :: rest => be16 a b :: hextetsOf rest
  | _ => []

/-- Leftmost longest run of zeros in a hextet list: start index and length,
tracked exactly as the compression pass of the Python `ipaddress` module
tracks its best double-colon candidate (a later run displaces an earlier one
only when strictly longer). -/
def bestZeroRun (hextets : List Nat) : Nat × Nat :=
  (hextets.enum.foldl
    (fun st ih =>
      let curStart := st.1.1
      let curLen := st.1.2
      let best := st.2
      if ih.2 = 0 then
        let s := if curLen = 0 then ih.1 else curStart
        let l := curLen + 1
        ((s, l), if l > best.2 then (s, l) else best)
      else ((0, 0), best))
    ((0, 0), (0, 0))).2

/-- Compressed textual form of a hextet list: lowercase hex without leading
zeros, with the leftmost longest run of two or more zero hextets replaced by
a double colon, as the Python `ipaddress` module renders an IPv6 address. -/
def ipv6Compress (hextets : List Nat) : String :=
  let strs := hextets.map fun h => String.mk (Nat.toDigits 16 h)
  let best := bestZeroRun hextets
  if best.2 > 1 then
    let strs := if best.1 + best.2 = hextets.length then strs ++ [""] else strs
    let strs := strs.take best.1 ++ [""] ++ strs.drop (best.1 + best.2)
    let strs := if best.1 = 0 then "" :: strs else strs
    String.intercalate ":" strs
  else String.intercalate ":" strs

/-- Bits of one byte, most significant first. -/
def bitsOfByte (b : Nat) : List Nat :=
  [b / 128 % 2, b / 64 % 2, b / 32 % 2, b / 16 % 2, b / 8 % 2, b / 4 % 2,
   b / 2 % 2, b % 2]

/-- Groups a bit list into 5-bit chunks, zero-padding the final chunk, as
Base32 consumes the bit stream of its input. -/
def chunks5 : List Nat → List (List Nat)
  | [] => []
  | [a] => [[a, 0, 0, 0, 0]]
  | [a, b] => [[a, b, 0, 0, 0]]
  | [a, b, c] => [[a, b, c, 0, 0]]
  | [a, b, c, d] => [[a, b, c, d, 0]]
  | a :: b :: c :: d :: e :: rest => [a, b, c, d, e] :: chunks5 rest

/-- Character of the Base32 alphabet, already lowercased as `to_base_32`
lowercases the stdlib output (a-z then 2-7). -/
def b32Char (n : Nat) : Char :=
  if n < 26 then Char.ofNat (97 + n) else Char.ofNat (50 + (n - 26))

/-- Embeds `to_base_32` (parser/common.py, lines 37-51): unpadded lowercase
Base32 — the stdlib `b32encode` emits one alphabet character per 5-bit group
of the input bit stream plus padding, and the source strips the padding and
lowercases. -/
def to_base_32 (addr : List Nat) : String :=
  String.mk ((chunks5 (addr.map bitsOfByte).flatten).map fun c =>
    b32Char (c.foldl (fun a b => 2 * a + b) 0))

/-- Strict ASCII decoding as Python `bytes.decode` with the ascii codec:
every byte must be below 128. -/
def asciiDecode (l : List Nat) : Option String :=
  if l.all fun b => decide (b < 128) then some (String.mk (l.map Char.ofNat))
  else none

/-- Embeds `parse_address` (parser/common.py, lines 54-108) over the explicit
stream model.  The source records the entry position, runs the body inside a
try block, and on any raised exception seeks back to the recorded position
and returns None; each `.error` arm of a `read_exact` call, the failing
`AddressType` construction and the failing ASCII decode are therefore
translated to `(none, pos_before)`.  The final arm mirrors the source's
`else: return None`, which returns without seeking back (it is reachable
only if the enum accepted a type byte outside 1-5, which it never does). -/
def parse_address (buf : List Nat) (pos : Nat) : Option Address × Nat :=
  let pos_before := pos
  match read_exact buf pos 1 with
  | (.error _, _) => (none, pos_before)
  | (.ok tb, p1) =>
    let type_id := tb.headD 0
    match AddressType.ofNat? type_id with
    | none => (none, pos_before)
    | some typ =>
      if type_id = 1 then
        match read_exact buf p1 4 with
        | (.error _, _) => (none, pos_before)
        | (.ok a4, p2) =>
          match read_exact buf p2 2 with
          | (.error _, _) => (none, pos_before)
          | (.ok pb, p3) =>
            (some ⟨typ, ipv4_to_string a4, be16 (pb.headD 0) (pb.tail.headD 0)⟩, p3)
      else if type_id = 2 then
        match read_exact buf p1 16 with
        | (.error _, _) => (none, pos_before)
        | (.ok raw, p2) =>
          match read_exact buf p2 2 with
          | (.error _, _) => (none, pos_before)
          | (.ok pb, p3) =>
            (some ⟨typ, "[" ++ ipv6Compress (hextetsOf raw) ++ "]",
              be16 (pb.headD 0) (pb.tail.headD 0)⟩, p3)
      else if type_id = 3 then
        match read_exact buf p1 10 with
        | (.error _, _) => (none, pos_before)
        | (.ok raw, p2) =>
          match read_exact buf p2 2 with
          | (.error _, _) => (none, pos_before)
          | (.ok pb, p3) =>
            (some ⟨typ, to_base_32 raw ++ ".onion",
              be16 (pb.headD 0) (pb.tail.headD 0)⟩, p3)
      else if type_id = 4 then
        match read_exact buf p1 35 with
        | (.error _, _) => (none, pos_before)
        | (.ok raw, p2) =>
          match read_exact buf p2 2 with
          | (.error _, _) => (none, pos_before)
          | (.ok pb, p3) =>
            (some ⟨typ, to_base_32 raw ++ ".onion",
              be16 (pb.headD 0) (pb.tail.headD 0)⟩, p3)
      else if type_id = 5 then
        match read_exact buf p1 1 with
        | (.error _, _) => (none, pos_before)
        | (.ok lb, p2) =>
          let hostname_len := lb.headD 0
          match read_exact buf p2 hostname_len with
          | (.error _, _) => (none, pos_before)
          | (.ok hb, p3) =>
            match asciiDecode hb with
            | none => (none, pos_before)
            | some hostname =>
              match read_exact buf p3 2 with
              | (.error _, _) => (none, pos_before)
              | (.ok pb, p4) =>
                (some ⟨typ, hostname, be16 (pb.headD 0) (pb.tail.headD 0)⟩, p4)
      else (none, p1)

/-! Theorems settling the claims. -/

/-- C7: for every unsigned 64-bit integer scid, `get_scid_from_int` always
succeeds (it is a total function) and returns exactly the string
block x txindex x output, where block is bits 63-40, txindex bits 39-16 and
output bits 15-0 of the scid; stated over all naturals through the
equivalent division/mod form of the shift-and-mask arithmetic. -/
theorem get_scid_from_int_correct (scid : Nat) :
    get_scid_from_int scid =
      Nat.repr (scid / 2 ^ 40 % 2 ^ 24) ++ "x" ++
      Nat.repr (scid / 2 ^ 16 % 2 ^ 24) ++ "x" ++
      Nat.repr (scid % 2 ^ 16) := by
  unfold get_scid_from_int
  rw [Nat.shiftRight_eq_div_pow, Nat.shiftRight_eq_div_pow]
  have h24 : (0xFFFFFF : Nat) = 2 ^ 24 - 1 := by norm_num
  have h16 : (0xFFFF : Nat) = 2 ^ 16 - 1 := by norm_num
  rw [h24, h16, Nat.and_pow_two_sub_one_eq_mod, Nat.and_pow_two_sub_one_eq_mod,
    Nat.and_pow_two_sub_one_eq_mod]

/-- C8: on the 7-byte sequence 01 7F 00 00 01 00 50 the address decoder
yields an IPv4 address rendered in dotted decimal as 127.0.0.1 with port 80,
and the cursor ends exactly 7 bytes past its start. -/
theorem parse_address_ipv4_example :
    parse_address [0x01, 0x7F, 0x00, 0x00, 0x01, 0x00, 0x50] 0 =
      (some ⟨AddressType.IPV4, "127.0.0.1", 80⟩, 7) := by rfl

/-- C5: the message-type detector raises exactly when the buffer is shorter
than 2 bytes; on a buffer of length at least 2 it never raises and returns
the big-endian 16-bit value of the first two bytes when that value belongs
to either known-type set, and absence otherwise.  Stated for arbitrary
injected known-type sets `lt` and `clt`. -/
theorem get_message_type_by_raw_hex_spec (lt clt raw : List Nat) :
    (get_message_type_by_raw_hex lt clt raw =
        .error "Insufficient data: Expected at least 2 bytes to extract message type."
      ↔ raw.length < 2)
    ∧ (2 ≤ raw.length →
        ((be16 (raw.headD 0) (raw.tail.headD 0) ∈ lt
            ∨ be16 (raw.headD 0) (raw.tail.headD 0) ∈ clt) →
          get_message_type_by_raw_hex lt clt raw =
            .ok (some (be16 (raw.headD 0) (raw.tail.headD 0))))
        ∧ (¬(be16 (raw.headD 0) (raw.tail.headD 0) ∈ lt
            ∨ be16 (raw.headD 0) (raw.tail.headD 0) ∈ clt) →
          get_message_type_by_raw_hex lt clt raw = .ok none)) := by
  simp only [get_message_type_by_raw_hex]
  by_cases hlen : raw.length < 2
  · rw [if_pos hlen]
    exact ⟨⟨fun _ => hlen, fun _ => rfl⟩, fun h2 => absurd hlen (by omega)⟩
  · rw [if_neg hlen]
    refine ⟨⟨fun hc => ?_, fun h2 => absurd h2 hlen⟩,
      fun _ => ⟨fun hm => ?_, fun hm => ?_⟩⟩
    · split at hc <;> simp at hc
    · rw [if_pos hm]
    · rw [if_neg hm]

/-- Witness for C5 at a concrete input: a 3-byte buffer whose first two
bytes form 256, with 256 in the first known-type set. -/
theorem get_message_type_by_raw_hex_spec_witness :
    2 ≤ ([1, 0, 9] : List Nat).length
    ∧ get_message_type_by_raw_hex [256, 257] [4101] [1, 0, 9] = .ok (some 256) := by
  refine ⟨by decide, ?_⟩
  have h := ((get_message_type_by_raw_hex_spec [256, 257] [4101] [1, 0, 9]).2
    (by decide)).1 (by decide)
  simpa [be16] using h

/-- C9: on every buffer of length at least 2, the stripper removes the first
2 bytes exactly when the detector recognizes the type, and returns the
buffer unchanged exactly when the detector reports absence.  Stated for
arbitrary injected known-type sets. -/
theorem strip_detect_agree (lt clt data : List Nat) (h : 2 ≤ data.length) :
    (strip_known_message_type lt clt data = .ok (data.drop 2)
      ↔ ∃ v, get_message_type_by_raw_hex lt clt data = .ok (some v))
    ∧ (strip_known_message_type lt clt data = .ok data
      ↔ get_message_type_by_raw_hex lt clt data = .ok none) := by
  have hdrop : data.drop 2 ≠ data := by
    intro heq
    have := congrArg List.length heq
    rw [List.length_drop] at this
    omega
  simp only [strip_known_message_type, get_message_type_by_raw_hex]
  rw [if_neg (show ¬data.length < 2 by omega),
    if_neg (show ¬data.length < 2 by omega)]
  by_cases hp : be16 (data.headD 0) (data.tail.headD 0) ∈ lt
      ∨ be16 (data.headD 0) (data.tail.headD 0) ∈ clt
  · rw [if_pos hp, if_pos hp]
    refine ⟨⟨fun _ => ⟨_, rfl⟩, fun _ => rfl⟩, ⟨fun hc => ?_, fun hc => ?_⟩⟩
    · exact absurd (Except.ok.inj hc) hdrop
    · simp at hc
  · rw [if_neg hp, if_neg hp]
    refine ⟨⟨fun hc => ?_, fun hc => ?_⟩, ⟨fun _ => rfl, fun _ => rfl⟩⟩
    · exact absurd (Except.ok.inj hc).symm hdrop
    · obtain ⟨v, hv⟩ := hc; simp at hv

/-- Witness for C9 at a concrete input: known set containing 256, buffer
beginning with 256 loses its first two bytes. -/
theorem strip_detect_agree_witness :
    2 ≤ ([1, 0, 7] : List Nat).length
    ∧ strip_known_message_type [256] [] [1, 0, 7] = .ok [7] := by
  refine ⟨by decide, ?_⟩
  have h := (strip_detect_agree [256] [] [1, 0, 7] (by decide)).1.mpr ⟨256, by rfl⟩
  simpa using h

/-- Counterexample for C2 as stated: on the 1-byte stream AA at position 0,
`read_exact` of 2 bytes fails, yet the position observable afterwards is 1,
not the pre-call position 0 — the underlying read consumed the one byte that
was available before the length check raised. -/
theorem read_exact_cex :
    read_exact [0xAA] 0 2 = (.error "Expected n bytes, got fewer", 1)
    ∧ (1 : Nat) ≠ 0 :=
  ⟨by rfl, by decide⟩

/-- C2 amended: `read_exact` fails exactly when fewer than `n` bytes remain
past the current position; in that failure case the position advances by the
number of bytes that actually remained (the stream is left at its end), and
on success the call returns the next `n` bytes with the position advanced
by `n`. -/
theorem read_exact_spec (buf : List Nat) (pos n : Nat) :
    ((read_exact buf pos n).1 = .error "Expected n bytes, got fewer"
      ↔ (buf.drop pos).length < n)
    ∧ ((buf.drop pos).length < n →
        (read_exact buf pos n).2 = pos + (buf.drop pos).length)
    ∧ (n ≤ (buf.drop pos).length →
        read_exact buf pos n = (.ok ((buf.drop pos).take n), pos + n)) := by
  have hlen : ((buf.drop pos).take n).length = min n (buf.drop pos).length :=
    List.length_take ..
  simp only [read_exact]
  by_cases hc : ((buf.drop pos).take n).length = n
  · rw [if_pos hc]
    have hge : n ≤ (buf.drop pos).length := by omega
    exact ⟨⟨fun h => absurd h (by simp), fun h => absurd h (by omega)⟩,
      fun h => absurd h (by omega), fun _ => by rw [hc]⟩
  · rw [if_neg hc]
    have hlt : (buf.drop pos).length < n := by omega
    exact ⟨⟨fun _ => hlt, fun _ => rfl⟩,
      fun _ => by simp only []; rw [hlen]; omega, fun h => absurd h (by omega)⟩

/-- Witness for the amended C2 at a concrete input: a 1-byte buffer read for
3 bytes fails and leaves the position at the end of the buffer. -/
theorem read_exact_spec_witness :
    (([5] : List Nat).drop 0).length < 3
    ∧ (read_exact [5] 0 3).1 = .error "Expected n bytes, got fewer"
    ∧ (read_exact [5] 0 3).2 = 0 + (([5] : List Nat).drop 0).length :=
  ⟨by decide, (read_exact_spec [5] 0 3).1.mpr (by decide),
    (read_exact_spec [5] 0 3).2.1 (by decide)⟩

/-- Counterexample for C6 as stated: with 256 in the known-type set, the
2-byte buffer 01 00 strips to the empty buffer, which does not start with a
known type tag, and the second application raises instead of being a no-op. -/
theorem strip_known_message_type_idem_cex :
    strip_known_message_type [256] [] [1, 0] = .ok []
    ∧ strip_known_message_type [256] [] ([] : List Nat) =
        .error "Failed to strip known message type: Input data is too short to contain a message type prefix." :=
  ⟨by rfl, by rfl⟩

/-- C6 amended: stripping is idempotent on every already-stripped result
that still has at least 2 bytes and does not start with a known type tag —
there the second application does not raise and returns its input unchanged.
Stated for arbitrary injected known-type sets. -/
theorem strip_known_message_type_idem (lt clt data stripped : List Nat)
    (_h : strip_known_message_type lt clt data = .ok stripped)
    (hlen : 2 ≤ stripped.length)
    (hns : ¬(be16 (stripped.headD 0) (stripped.tail.headD 0) ∈ lt
        ∨ be16 (stripped.headD 0) (stripped.tail.headD 0) ∈ clt)) :
    strip_known_message_type lt clt stripped = .ok stripped := by
  simp only [strip_known_message_type]
  rw [if_neg (show ¬stripped.length < 2 by omega), if_neg hns]

/-- Witness for the amended C6 at a concrete input: stripping 01 00 09 09
with known set containing 256 yields 09 09, and stripping that again is a
no-op. -/
theorem strip_known_message_type_idem_witness :
    strip_known_message_type [256] [] [1, 0, 9, 9] = .ok [9, 9]
    ∧ strip_known_message_type [256] [] [9, 9] = .ok [9, 9] :=
  ⟨by rfl, strip_known_message_type_idem [256] [] [1, 0, 9, 9] [9, 9]
    (by rfl) (by decide) (by decide)⟩

/-- C10: on 32 zero bytes the alias decoder takes the UTF-8 path (32 NUL
codepoints decode successfully) and the NUL-stripping leaves the empty
string — no hex fallback and no error, whatever the punycode decoder would
do. -/
theorem decode_alias_all_zero (puny : List Nat → Option (List Nat)) :
    decode_alias puny (List.replicate 32 0) = [] := by rfl

/-- The hex encoding of a cons is the two digit characters of the head
followed by the hex encoding of the tail. -/
theorem bytesHex_cons (a : Nat) (t : List Nat) :
    bytesHex (a :: t) = hexDigit (a / 16) :: hexDigit (a % 16) :: bytesHex t := by
  rfl

/-- The hex encoding has two characters per byte. -/
theorem bytesHex_length (l : List Nat) : (bytesHex l).length = 2 * l.length := by
  induction l with
  | nil => rfl
  | cons a t ih => rw [bytesHex_cons]; simp [ih]; omega

/-- A hex digit of a value below 16 is a lowercase hex digit character:
0-9 or a-f. -/
theorem hexDigit_range (n : Nat) (h : n ≤ 15) :
    (48 ≤ hexDigit n ∧ hexDigit n ≤ 57) ∨ (97 ≤ hexDigit n ∧ hexDigit n ≤ 102) := by
  unfold hexDigit
  split <;> omega

/-- Every character of the hex encoding of a byte list is a lowercase hex
digit character. -/
theorem bytesHex_mem (l : List Nat) (hb : ∀ x ∈ l, x < 256) :
    ∀ c ∈ bytesHex l, (48 ≤ c ∧ c ≤ 57) ∨ (97 ≤ c ∧ c ≤ 102) := by
  induction l with
  | nil => intro c hc; simp [bytesHex] at hc
  | cons a t ih =>
    intro c hc
    rw [bytesHex_cons] at hc
    have ha : a < 256 := hb a (by simp)
    simp only [List.mem_cons] at hc
    rcases hc with h1 | h2 | h3
    · subst h1; exact hexDigit_range (a / 16) (by omega)
    · subst h2; exact hexDigit_range (a % 16) (by omega)
    · exact ih (fun x hx => hb x (by simp [hx])) c h3

/-- C3: on every 32-byte input for which strict UTF-8 decoding of the whole
run fails and punycode decoding of the NUL-stripped bytes fails, the alias
decoder falls back to the lowercase hexadecimal encoding of the original 32
raw bytes, a 64-character string made of the digits 0-9 and a-f.  Totality
holds by construction: `decode_alias` is a total function into strings. -/
theorem decode_alias_hex_fallback
    (puny : List Nat → Option (List Nat)) (b : List Nat)
    (h32 : b.length = 32) (hb : ∀ x ∈ b, x < 256)
    (hu : decodeUtf8 b = none) (hp : puny (stripC 0 b) = none) :
    decode_alias puny b = bytesHex b
    ∧ (decode_alias puny b).length = 64
    ∧ ∀ c ∈ decode_alias puny b,
        (48 ≤ c ∧ c ≤ 57) ∨ (97 ≤ c ∧ c ≤ 102) := by
  have he : decode_alias puny b = bytesHex b := by
    unfold decode_alias
    rw [hu, hp]
  refine ⟨he, ?_, ?_⟩
  · rw [he, bytesHex_length, h32]
  · rw [he]
    exact bytesHex_mem b hb

/-- Witness for C3 at a concrete input: 32 bytes of FF are ill-formed UTF-8,
the punycode decoder that always fails sends the decoder to the hex
fallback. -/
theorem decode_alias_hex_fallback_witness :
    decode_alias (fun _ => none) (List.replicate 32 0xFF)
      = bytesHex (List.replicate 32 0xFF)
    ∧ (decode_alias (fun _ => none) (List.replicate 32 0xFF)).length = 64 := by
  have h := decode_alias_hex_fallback (fun _ => none) (List.replicate 32 0xFF)
    (by decide) (by decide) (by rfl) (by rfl)
  exact ⟨h.1, h.2.1⟩

/-- Removing the leading run of `c` splits the list into a replicate of `c`
and the remainder. -/
theorem lstripC_decomp (c : Nat) (l : List Nat) :
    ∃ i, l = List.replicate i c ++ lstripC c l := by
  refine ⟨(l.takeWhile (· == c)).length, ?_⟩
  conv_lhs => rw [← List.takeWhile_append_dropWhile (p := (· == c)) (l := l)]
  congr 1
  apply List.eq_replicate_of_mem
  intro b hb
  have := List.mem_takeWhile_imp hb
  exact beq_iff_eq.mp this

/-- Removing the trailing run of `c` splits the list into the remainder and
a replicate of `c`. -/
theorem rstripC_decomp (c : Nat) (l : List Nat) :
    ∃ j, l = rstripC c l ++ List.replicate j c := by
  obtain ⟨j, hj⟩ := lstripC_decomp c l.reverse
  refine ⟨j, ?_⟩
  have h2 := congrArg List.reverse hj
  rw [List.reverse_reverse, List.reverse_append, List.reverse_replicate] at h2
  exact h2

/-- Python-style two-sided stripping splits the list into a leading
replicate, the stripped core, and a trailing replicate. -/
theorem stripC_decomp (c : Nat) (l : List Nat) :
    ∃ i j, l = List.replicate i c ++ stripC c l ++ List.replicate j c := by
  obtain ⟨i, hi⟩ := lstripC_decomp c l
  obtain ⟨j, hj⟩ := rstripC_decomp c (lstripC c l)
  exact ⟨i, j, by rw [List.append_assoc]; rw [stripC]; rw [← hj]; exact hi⟩

/-- Counterexample for C4 as stated: the 32-byte input 00 61 00...00 decodes
as UTF-8, the code returns the one-character string a (Python `strip`
removes the leading NUL too), while stripping only trailing NULs would keep
the leading NUL and give a two-character string. -/
theorem decode_alias_utf8_cex :
    decode_alias (fun _ => none) (0 :: 97 :: List.replicate 30 0) = [97]
    ∧ decodeUtf8 (0 :: 97 :: List.replicate 30 0)
        = some (0 :: 97 :: List.replicate 30 0)
    ∧ rstripC 0 (0 :: 97 :: List.replicate 30 0) = [0, 97]
    ∧ ([97] : List Nat) ≠ [0, 97] :=
  ⟨by rfl, by rfl, by rfl, by decide⟩

/-- C4 amended: on every input whose full byte run decodes as UTF-8, the
alias decoder returns that decoding with its leading and trailing NUL
characters stripped — every character outside the leading and the trailing
NUL run is preserved, witnessed by the decomposition of the decoded string
into leading NULs, the returned string and trailing NULs. -/
theorem decode_alias_utf8_success (puny : List Nat → Option (List Nat))
    (b cps : List Nat) (h : decodeUtf8 b = some cps) :
    decode_alias puny b = stripC 0 cps
    ∧ ∃ i j, cps = List.replicate i 0 ++ decode_alias puny b
        ++ List.replicate j 0 := by
  have he : decode_alias puny b = stripC 0 cps := by
    unfold decode_alias
    rw [h]
  refine ⟨he, ?_⟩
  rw [he]
  exact stripC_decomp 0 cps

/-- Witness for the amended C4 at a concrete input: the 32-byte field
holding the UTF-8 text hi padded with 30 NUL bytes. -/
theorem decode_alias_utf8_success_witness :
    decode_alias (fun _ => none) (104 :: 105 :: List.replicate 30 0)
      = stripC 0 (104 :: 105 :: List.replicate 30 0) :=
  (decode_alias_utf8_success (fun _ => none)
    (104 :: 105 :: List.replicate 30 0) (104 :: 105 :: List.replicate 30 0)
    (by rfl)).1

/-- C1: whenever the address decoder returns absence — on a read shortfall,
a decode error, or an unsupported leading type byte — the stream position
observable afterwards equals the position recorded at entry; and no
exception propagates, since `parse_address` is a total function into an
optional address and a position. -/
theorem parse_address_none_restores_pos (buf : List Nat) (pos : Nat) :
    (parse_address buf pos).1 = none → (parse_address buf pos).2 = pos := by
  simp only [parse_address]
  repeat' split
  all_goals simp_all [AddressType.ofNat?]

/-- Witness for C1 at a concrete input: the empty stream yields absence with
the position unchanged. -/
theorem parse_address_none_restores_pos_witness :
    (parse_address [] 0).1 = none ∧ (parse_address [] 0).2 = 0 :=
  ⟨by rfl, parse_address_none_restores_pos [] 0 (by rfl)⟩

/-! Sanity checks of the embedding against outputs of the CPython stdlib
routines the source calls (`ipaddress`, `base64.b32encode`, `bytes.decode`,
`io.BytesIO`), each verified by evaluation. -/

/-- The IPv6 rendering agrees with CPython on a compressible address. -/
theorem ipv6_sanity_compress :
    ipv6Compress (hextetsOf ([0x20, 0x01, 0x0D, 0xB8] ++ List.replicate 10 0
      ++ [0, 1])) = "2001:db8::1" := by rfl

/-- The IPv6 rendering agrees with CPython on the all-zero address. -/
theorem ipv6_sanity_zero :
    ipv6Compress (hextetsOf (List.replicate 16 0)) = "::" := by rfl

/-- The IPv6 rendering agrees with CPython when the longest zero run is not
the first: the leftmost longest run wins and single zeros stay. -/
theorem ipv6_sanity_runs :
    ipv6Compress [1, 0, 0, 2, 0, 0, 0, 3] = "1:0:0:2::3"
    ∧ ipv6Compress [0, 1, 2, 3, 4, 5, 6, 7] = "0:1:2:3:4:5:6:7" := ⟨by rfl, by rfl⟩

/-- The unpadded lowercase Base32 encoding agrees with CPython on a 10-byte
Tor v2 key. -/
theorem to_base_32_sanity :
    to_base_32 [0, 1, 2, 3, 4, 5, 6, 7, 8, 9] = "aaaqeayeaudaocaj" := by rfl

/-- The strict UTF-8 model accepts a 4-byte scalar and rejects an overlong
3-byte form and a surrogate, as CPython's strict utf-8 codec does. -/
theorem decodeUtf8_sanity :
    decodeUtf8 [0xF0, 0x9F, 0x98, 0x80] = some [0x1F600]
    ∧ decodeUtf8 [0xE0, 0x9F, 0x80] = none
    ∧ decodeUtf8 [0xED, 0xA0, 0x80] = none := ⟨by rfl, by rfl, by rfl⟩

/-- The address decoder handles a DNS record and rejects a non-ASCII
hostname byte with the cursor restored. -/
theorem parse_address_dns_sanity :
    parse_address [5, 3, 97, 98, 99, 0, 80] 0 = (some ⟨.DNS, "abc", 80⟩, 7)
    ∧ parse_address [5, 3, 97, 200, 99, 0, 80] 0 = (none, 0) := ⟨by rfl, by rfl⟩

end LnHistory
